import Mathlib

/-!
# Verification of the exatomic `Universe` container

A shallow embedding of `exatomic/universe.py`: the lazily-cached derived
tables of an atomic universe (unit-cell-folded atoms, projected supercell
images, two-body/bond tables, molecules, fields), their `compute_*` methods,
accessor properties, truncation, and field append.

Tables are modelled as lists of records; pandas dataframes keyed by an index
become lists of rows carrying their index value.  Floating point coordinates
are modelled exactly by rationals.  The cached derived attributes of the
`Universe` container (`_unit_atom`, `_projected_atom`, ...) are modelled as
`Option`-valued fields: `none` is the absent state (`hasattr` false / `None`
in the Python container), `some t` is the cached present state.

Accessor properties are modelled as functions returning the accessed value,
the post-access container state, and the number of `compute_X` invocations
the access performed (0 or 1), so that lazy-caching claims are statable.

Compute kernels living in modules outside `universe.py` (`exatomic.atom`,
`exatomic.two`, `exatomic.molecule`, and the `exa` container base class) are
modelled from the spec; each such definition says so in its doc comment.
-/

namespace Exatomic

/-- A 3-vector of exact rational coordinates (models float x, y, z columns). -/
structure Vec3 where
  x : ℚ
  y : ℚ
  z : ℚ
deriving Repr, DecidableEq

/-- A 3×3 matrix of rationals, rows are the three unit-cell vectors
(models the `xi..zk` cell magnitude columns of the Frame table). -/
structure Mat3 where
  r0 : Vec3
  r1 : Vec3
  r2 : Vec3
deriving Repr, DecidableEq

def Vec3.add (a b : Vec3) : Vec3 := ⟨a.x + b.x, a.y + b.y, a.z + b.z⟩

def Vec3.sub (a b : Vec3) : Vec3 := ⟨a.x - b.x, a.y - b.y, a.z - b.z⟩

def Vec3.smul (c : ℚ) (a : Vec3) : Vec3 := ⟨c * a.x, c * a.y, c * a.z⟩

def Vec3.dot (a b : Vec3) : ℚ := a.x * b.x + a.y * b.y + a.z * b.z

/-- Squared Euclidean norm. -/
def Vec3.normSq (a : Vec3) : ℚ := a.dot a

/-- Squared Euclidean distance between two points (exact model of the
float `distance` column squared; comparisons against cutoffs are made on
squares, which is equivalent for non-negative quantities). -/
def distSq (a b : Vec3) : ℚ := (a.sub b).normSq

def Mat3.det (m : Mat3) : ℚ :=
  m.r0.x * (m.r1.y * m.r2.z - m.r1.z * m.r2.y)
    - m.r0.y * (m.r1.x * m.r2.z - m.r1.z * m.r2.x)
    + m.r0.z * (m.r1.x * m.r2.y - m.r1.y * m.r2.x)

/-- Matrix applied to a column vector: `(m * v)`. -/
def Mat3.mulVec (m : Mat3) (v : Vec3) : Vec3 :=
  ⟨m.r0.dot v, m.r1.dot v, m.r2.dot v⟩

/-- Transpose applied to a column vector, i.e. `vᵀ * m` as a column:
used to turn fractional coordinates back into Cartesian ones when rows of
`m` are the cell vectors. -/
def Mat3.vecMul (m : Mat3) (v : Vec3) : Vec3 :=
  ⟨v.x * m.r0.x + v.y * m.r1.x + v.z * m.r2.x,
   v.x * m.r0.y + v.y * m.r1.y + v.z * m.r2.y,
   v.x * m.r0.z + v.y * m.r1.z + v.z * m.r2.z⟩

/-- Adjugate (transposed cofactor) matrix. -/
def Mat3.adj (m : Mat3) : Mat3 :=
  ⟨⟨m.r1.y * m.r2.z - m.r1.z * m.r2.y,
    -(m.r0.y * m.r2.z - m.r0.z * m.r2.y),
    m.r0.y * m.r1.z - m.r0.z * m.r1.y⟩,
   ⟨-(m.r1.x * m.r2.z - m.r1.z * m.r2.x),
    m.r0.x * m.r2.z - m.r0.z * m.r2.x,
    -(m.r0.x * m.r1.z - m.r0.z * m.r1.x)⟩,
   ⟨m.r1.x * m.r2.y - m.r1.y * m.r2.x,
    -(m.r0.x * m.r2.y - m.r0.y * m.r2.x),
    m.r0.x * m.r1.y - m.r0.y * m.r1.x⟩⟩

/-- Matrix inverse via the adjugate (total: returns the zero-scaled adjugate
when the determinant is zero; the spec calls a non-invertible cell a
configuration error, and the folding kernel is only meaningful on invertible
cells). -/
def Mat3.inv (m : Mat3) : Mat3 :=
  let d := m.det
  ⟨Vec3.smul (1 / d) m.adj.r0, Vec3.smul (1 / d) m.adj.r1, Vec3.smul (1 / d) m.adj.r2⟩

/-- Fractional part in `[0, 1)`. -/
def fract (q : ℚ) : ℚ := q - ⌊q⌋

/-- One row of the Frame table: frame index, atom count, periodicity flag and
optional unit-cell vectors. -/
structure FrameRow where
  id : Int
  atom_count : Nat
  is_periodic : Bool
  cell : Option Mat3
deriving Repr, DecidableEq

/-- One row of the Atom table: atom index, owning frame, element symbol,
Cartesian position, and the derived `bond_count` column (absent until
`compute_bond_count` fills it). -/
structure AtomRow where
  id : Nat
  frame : Int
  symbol : String
  pos : Vec3
  bond_count : Option Int
deriving Repr, DecidableEq

/-- One row of the ProjectedAtom table: its own index (the id the
`prjd_atom0` / `prjd_atom1` columns of PeriodicTwo refer to), the source
atom back-reference, the integer lattice-translation triple, the translated
position, and the derived `bond_count` column. -/
structure ProjRow where
  id : Nat
  atom : Nat
  image : Int × Int × Int
  pos : Vec3
  bond_count : Option Int
deriving Repr, DecidableEq

/-- One row of the free two-body table (`Two`). -/
structure TwoRow where
  atom0 : Nat
  atom1 : Nat
  distanceSq : ℚ
  bond : Bool
deriving Repr, DecidableEq

/-- One row of the periodic two-body table (`PeriodicTwo`): projected-atom
ids plus the source-atom ids they map back to. -/
structure PTwoRow where
  prjd_atom0 : Nat
  prjd_atom1 : Nat
  atom0 : Nat
  atom1 : Nat
  distanceSq : ℚ
  bond : Bool
deriving Repr, DecidableEq

/-- One row of the Molecule table. -/
structure MolRow where
  id : Nat
  frame : Int
  atoms : List Nat
  formula : List (String × Nat)
  classification : Option String
deriving Repr, DecidableEq

/-- One dimension row of the field store (origin, per-axis sample counts,
owning frame, label). -/
structure FieldRow where
  frame : Option Int
  label : Nat
  origin : Vec3
  counts : Nat × Nat × Nat
deriving Repr, DecidableEq

/-- The field store: dimension dataframe rows plus the parallel list of
sampled value arrays (`field_values`); row/array index is list position,
matching the fresh `RangeIndex` produced by `ignore_index` concatenation. -/
structure FieldStore where
  df : List FieldRow
  field_values : List (List ℚ)
deriving Repr, DecidableEq

/-- The Universe container.  Base tables `frame` and `atom` are always
present; every derived table is an `Option` whose `none` models the absent
(not yet computed / invalidated) state of the corresponding cached
attribute of the Python container. -/
structure Universe where
  frame : List FrameRow
  atom : List AtomRow
  _unit_atom : Option (List (Nat × Vec3))
  _visual_atom : Option (List (Nat × Vec3))
  _projected_atom : Option (List ProjRow)
  two_free : Option (List TwoRow)
  two_periodic : Option (List PTwoRow)
  _molecule : Option (List MolRow)
  _field : Option FieldStore
deriving Repr, DecidableEq

/-- `Universe.is_periodic`: whether the universe is periodic, read off the
Frame table's periodicity flags (the `Frame.is_periodic` property lives in
`exatomic.frame`, outside `universe.py`; modelled from the spec as "the
frames are periodic"). -/
def Universe.is_periodic (u : Universe) : Bool :=
  u.frame.any (fun f => f.is_periodic)

/-- Fold a Cartesian position into the primary unit cell: to fractional
coordinates, `mod 1.0` per axis, back to Cartesian.  With the cell vectors
as the rows of `cell`, a point with fractional coordinates `f` sits at
`cellᵀ · f`, so Cartesian→fractional is `(cellᵀ)⁻¹ · p = (cell⁻¹)ᵀ · p`
(`Mat3.vecMul` of the inverse) and fractional→Cartesian is `cellᵀ · f`
(`Mat3.vecMul` of the cell): the two maps are mutually inverse for every
invertible cell, so an in-cell point is a fixed point of the fold. -/
def foldIntoCell (cell : Mat3) (p : Vec3) : Vec3 :=
  let f := cell.inv.vecMul p
  cell.vecMul ⟨fract f.x, fract f.y, fract f.z⟩

/-- Modelled from the spec: `exatomic.atom.compute_unit_atom` (imported as
`_cua`; its module is not under `src/`).  For atoms in periodic frames with
cell vectors, fold the position into the primary cell and emit a sparse
overlay row only when the folded position differs from the raw one; atoms
of non-periodic frames contribute nothing. -/
def cua (u : Universe) : List (Nat × Vec3) :=
  u.atom.filterMap (fun a =>
    match u.frame.find? (fun fr => fr.id == a.frame) with
    | some fr =>
      match fr.cell with
      | some c =>
        if fr.is_periodic then
          let folded := foldIntoCell c a.pos
          if folded = a.pos then none else some (a.id, folded)
        else none
      | none => none
    | none => none)

/-- The fixed, lexicographically ordered 27 lattice-translation triples
`(-1,0,1)^3` used for supercell projection. -/
def supercellTriples : List (Int × Int × Int) :=
  [-1, 0, 1].flatMap (fun i =>
    [-1, 0, 1].flatMap (fun j =>
      [-1, 0, 1].map (fun k => ((i : Int), (j : Int), (k : Int)))))

/-- The in-cell position of an atom: its sparse unit-atom overlay entry when
present, its raw position otherwise (the merge the `unit_atom` view
performs per row). -/
def unitPos (overlay : List (Nat × Vec3)) (a : AtomRow) : Vec3 :=
  (overlay.lookup a.id).getD a.pos

/-- Modelled from the spec: `exatomic.atom.compute_projected_atom` (imported
as `_cpa`; its module is not under `src/`).  For each atom of a periodic
frame with cell vectors, one row per translation triple, atom-major with the
triples in the fixed lexicographic order; projected position = unit-atom
position + triple · cell vectors; row ids are assigned sequentially. -/
def cpa (u : Universe) : List ProjRow :=
  let overlay := cua u
  let rows := u.atom.flatMap (fun a =>
    match u.frame.find? (fun fr => fr.id == a.frame) with
    | some fr =>
      match fr.cell with
      | some c =>
        if fr.is_periodic then
          supercellTriples.map (fun t =>
            let shift :=
              (Vec3.smul (t.1 : ℚ) c.r0).add
                ((Vec3.smul (t.2.1 : ℚ) c.r1).add (Vec3.smul (t.2.2 : ℚ) c.r2))
            (a.id, t, (unitPos overlay a).add shift))
        else []
      | none => []
    | none => [])
  rows.enum.map (fun r => ⟨r.1, r.2.1, r.2.2.1, r.2.2.2, none⟩)

/-- Modelled from the spec: `exatomic.atom.compute_visual_atom` (imported as
`_cva`; its module is not under `src/`).  "Visually pleasing" periodic
coordinates: among the 27 images of the folded position, the one nearest the
atom's raw position (the spec's intra-molecule displacement minimisation is
modelled per atom, against the raw trajectory position); emitted as a sparse
overlay of the rows that change. -/
def cva (u : Universe) : List (Nat × Vec3) :=
  u.atom.filterMap (fun a =>
    match u.frame.find? (fun fr => fr.id == a.frame) with
    | some fr =>
      match fr.cell with
      | some c =>
        if fr.is_periodic then
          let base := foldIntoCell c a.pos
          let candidates := supercellTriples.map (fun t =>
            base.add ((Vec3.smul (t.1 : ℚ) c.r0).add
              ((Vec3.smul (t.2.1 : ℚ) c.r1).add (Vec3.smul (t.2.2 : ℚ) c.r2))))
          let best := candidates.foldl
            (fun acc p => if distSq p a.pos < distSq acc a.pos then p else acc) base
          if best = a.pos then none else some (a.id, best)
        else none
      | none => none
    | none => none)

/-- `atom.copy().update(overlay)`: the pandas index-aligned update — each
atom row whose id has an overlay entry gets its position overridden; all
other rows are returned unchanged.  The input table is not mutated. -/
def updateAtoms (atoms : List AtomRow) (overlay : List (Nat × Vec3)) : List AtomRow :=
  atoms.map (fun a =>
    match overlay.lookup a.id with
    | some p => { a with pos := p }
    | none => a)

/-- `Universe.compute_unit_atom`: recompute and cache the sparse unit-atom
overlay (`self._unit_atom = _cua(self)`). -/
def Universe.compute_unit_atom (u : Universe) : Universe :=
  { u with _unit_atom := some (cua u) }

/-- `Universe.compute_projected_atom`: recompute and cache the projected
supercell table (`self._projected_atom = _cpa(self)`). -/
def Universe.compute_projected_atom (u : Universe) : Universe :=
  { u with _projected_atom := some (cpa u) }

/-- `Universe.compute_visual_atom`: recompute and cache the visual-atom
overlay (`self._visual_atom = _cva(self)`). -/
def Universe.compute_visual_atom (u : Universe) : Universe :=
  { u with _visual_atom := some (cva u) }

/-- The `unit_atom` accessor property: if the cached overlay is absent
(`not self._is('_unit_atom')`), invoke `compute_unit_atom`, then return the
raw Atom table merged with the cached overlay.  Returns the value, the
post-access state, and the number of `compute_unit_atom` invocations. -/
def Universe.unit_atom (u : Universe) : List AtomRow × Universe × Nat :=
  match u._unit_atom with
  | none =>
    let u' := u.compute_unit_atom
    (updateAtoms u'.atom (u'._unit_atom.getD []), u', 1)
  | some ua => (updateAtoms u.atom ua, u, 0)

/-- The `projected_atom` accessor property: if the cached table is `None`,
invoke `compute_projected_atom`, then return the cached table.  Returns the
value, the post-access state, and the number of `compute_projected_atom`
invocations. -/
def Universe.projected_atom (u : Universe) : List ProjRow × Universe × Nat :=
  match u._projected_atom with
  | none =>
    let u' := u.compute_projected_atom
    (u'._projected_atom.getD [], u', 1)
  | some pa => (pa, u, 0)

/-- The `visual_atom` accessor property: for a periodic universe, lazily
compute and cache the visual overlay and return a fresh copy of Atom with
the overlay rows overridden; for a free universe, return the raw Atom table
itself, computing and caching nothing.  Returns the value, the post-access
state, and the number of `compute_visual_atom` invocations. -/
def Universe.visual_atom (u : Universe) : List AtomRow × Universe × Nat :=
  if u.is_periodic then
    match u._visual_atom with
    | none =>
      let u' := u.compute_visual_atom
      (updateAtoms u'.atom (u'._visual_atom.getD []), u', 1)
    | some va => (updateAtoms u.atom va, u, 0)
  else (u.atom, u, 0)

/-- A per-element-pair bonding cutoff table already scaled by the tolerance
factor (the spec's `cutoff(symbol_a, symbol_b) × tolerance_factor`). -/
def Cutoffs : Type := String → String → ℚ

/-- Modelled from the spec: the free branch of `exatomic.two.compute_two_body`
(imported as `_ctb`; its module is not under `src/`).  All unordered pairs
within each frame with their exact squared Euclidean distance; a pair is a
bond iff its distance is within the (tolerance-scaled) element-pair cutoff,
compared on squares. -/
def ctbFree (atoms : List AtomRow) (cut : Cutoffs) : List TwoRow :=
  atoms.flatMap (fun a =>
    atoms.filterMap (fun b =>
      if a.id < b.id ∧ a.frame = b.frame then
        let d2 := distSq a.pos b.pos
        some ⟨a.id, b.id, d2, decide (d2 ≤ (cut a.symbol b.symbol) ^ 2)⟩
      else none))

/-- Among candidate projected rows the one at minimum squared distance from
`p`, earliest-listed (hence lowest image index in the fixed lexicographic
order) on ties. -/
def minImage (p : Vec3) : List ProjRow → Option (ProjRow × ℚ)
  | [] => none
  | r :: rs =>
    let d := distSq p r.pos
    match minImage p rs with
    | none => some (r, d)
    | some (r2, d2) => if d ≤ d2 then some (r, d) else some (r2, d2)

/-- Modelled from the spec: the periodic branch of
`exatomic.two.compute_two_body`.  For each unordered source-atom pair within
a frame, search the projected images of the second atom for the
minimum-distance image against the first atom's identity image, and retain
only that image pair. -/
def ctbPeriodic (atoms : List AtomRow) (proj : List ProjRow) (cut : Cutoffs) :
    List PTwoRow :=
  atoms.flatMap (fun a =>
    atoms.filterMap (fun b =>
      if a.id < b.id ∧ a.frame = b.frame then
        match proj.find? (fun p => p.atom == a.id && p.image == ((0 : Int), (0 : Int), (0 : Int))) with
        | some pa0 =>
          match minImage pa0.pos (proj.filter (fun p => p.atom == b.id)) with
          | some (pb, d2) =>
            some ⟨pa0.id, pb.id, a.id, b.id, d2,
              decide (d2 ≤ (cut a.symbol b.symbol) ^ 2)⟩
          | none => none
        | none => none
      else none))

/-- The concatenated `prjd_atom0` and `prjd_atom1` id columns of a periodic
two-body table (`pa = two['prjd_atom0'].append(two['prjd_atom1'])`). -/
def referencedOf (rows : List PTwoRow) : List Nat :=
  rows.map (fun r => r.prjd_atom0) ++ rows.map (fun r => r.prjd_atom1)

/-- The projected-atom ids the universe's periodic two-body table references. -/
def referencedPrjd (u : Universe) : List Nat :=
  referencedOf (u.two_periodic.getD [])

/-- `Universe.truncate_projected_atom`: collect every `prjd_atom0` and
`prjd_atom1` id of the periodic two-body table and keep only the
ProjectedAtom rows whose index is among them (`self._projected_atom[
self._projected_atom.index.isin(pa)]`).  A universe with no cached
projected table is returned unchanged (the Python code would fail there;
the claims only exercise the present state). -/
def Universe.truncate_projected_atom (u : Universe) : Universe :=
  match u._projected_atom with
  | some t =>
    { u with _projected_atom := some (t.filter (fun p => (referencedPrjd u).contains p.id)) }
  | none => u

/-- Default of the `truncate_projected` keyword argument of
`Universe.compute_two_body`. -/
def truncate_projected_default : Bool := true

/-- `Universe.compute_two_body`: periodic universes store the periodic
kernel's result into `two_periodic` (the kernel reads the projected table
through its lazy accessor) and, when `truncate_projected` is true,
additionally truncate the projected-atom table; free universes store the
free kernel's result into `two_free`. -/
def Universe.compute_two_body (u : Universe) (cut : Cutoffs)
    (truncate_projected : Bool) : Universe :=
  if u.is_periodic then
    let r := u.projected_atom
    let u2 := { r.2.1 with two_periodic := some (ctbPeriodic r.2.1.atom r.1 cut) }
    if truncate_projected then u2.truncate_projected_atom else u2
  else
    { u with two_free := some (ctbFree u.atom cut) }

/-- The source-atom ids referenced by each bond of the universe's two-body
table (periodic bonds mapped back to their source atoms), one occurrence
per bond end. -/
def bondRefs (u : Universe) : List Nat :=
  if u.is_periodic then
    (u.two_periodic.getD []).filterMap (fun r => if r.bond then some r.atom0 else none)
      ++ (u.two_periodic.getD []).filterMap (fun r => if r.bond then some r.atom1 else none)
  else
    (u.two_free.getD []).filterMap (fun r => if r.bond then some r.atom0 else none)
      ++ (u.two_free.getD []).filterMap (fun r => if r.bond then some r.atom1 else none)

/-- Modelled from the spec: `exatomic.two.compute_bond_count` (imported as
`_cbc`; its module is not under `src/`).  The per-atom bond tally as a
sparse series: one entry per atom that at least one bond references, holding
the number of referencing bonds; atoms referenced by no bond get no entry
(they are the NaN rows the caller fills). -/
def cbc (u : Universe) : List (Nat × Nat) :=
  ((bondRefs u).dedup).map (fun a => (a, (bondRefs u).count a))

/-- The projected-atom ids referenced by each bond of the periodic two-body
table, one occurrence per bond end. -/
def prjdBondRefs (u : Universe) : List Nat :=
  (u.two_periodic.getD []).filterMap (fun r => if r.bond then some r.prjd_atom0 else none)
    ++ (u.two_periodic.getD []).filterMap (fun r => if r.bond then some r.prjd_atom1 else none)

/-- Modelled from the spec: `exatomic.two.compute_projected_bond_count`
(imported as `_cpbc`; its module is not under `src/`).  The per-projected-row
bond tally as a sparse series over the rows some bond resolves to. -/
def cpbc (u : Universe) : List (Nat × Nat) :=
  ((prjdBondRefs u).dedup).map (fun p => (p, (prjdBondRefs u).count p))

/-- `Universe.compute_bond_count`: write the sparse tally onto the Atom
table's `bond_count` column and fill the unassigned rows with 0
(`fillna(0).astype(int64)`). -/
def Universe.compute_bond_count (u : Universe) : Universe :=
  let counts := cbc u
  { u with atom := u.atom.map (fun a =>
      { a with bond_count := some (Int.ofNat (((counts.lookup a.id)).getD 0)) }) }

/-- `Universe.compute_projected_bond_count`: write the sparse tally onto the
projected-atom table's `bond_count` column (accessed through the
`projected_atom` property) and fill the unresolved rows with the sentinel −1
(`fillna(-1).astype(int64)`). -/
def Universe.compute_projected_bond_count (u : Universe) : Universe :=
  let r := u.projected_atom
  let counts := cpbc r.2.1
  let fill := fun (p : ProjRow) =>
    { p with bond_count := some (((counts.lookup p.id).map Int.ofNat).getD (-1)) }
  { r.2.1 with _projected_atom := some (r.1.map fill) }

/-- The bonded source-atom pairs of the universe's two-body table (the edges
of the bond graph; periodic bonds already carry their source-atom ids). -/
def bondPairs (u : Universe) : List (Nat × Nat) :=
  if u.is_periodic then
    (u.two_periodic.getD []).filterMap
      (fun r => if r.bond then some (r.atom0, r.atom1) else none)
  else
    (u.two_free.getD []).filterMap
      (fun r => if r.bond then some (r.atom0, r.atom1) else none)

/-- Whether vertex `v` is adjacent (by some edge) to the vertex set `s`. -/
def adjacentTo (edges : List (Nat × Nat)) (s : List Nat) (v : Nat) : Bool :=
  edges.any (fun e =>
    (s.contains e.1 && e.2 == v) || (s.contains e.2 && e.1 == v))

/-- Grow a vertex set along edges for `n` rounds (fuel-bounded breadth-first
closure; `n` = vertex count suffices to reach the fixpoint). -/
def grow (edges : List (Nat × Nat)) (verts : List Nat) :
    Nat → List Nat → List Nat
  | 0, s => s
  | n + 1, s =>
    grow edges verts n
      (s ++ verts.filter (fun v => !s.contains v && adjacentTo edges s v))

/-- The connected component of `v` in the bond graph. -/
def component (edges : List (Nat × Nat)) (verts : List Nat) (v : Nat) : List Nat :=
  grow edges verts verts.length [v]

/-- The composition summary of a set of member atoms: the multiset of element
symbols as (symbol, count) pairs in first-occurrence order. -/
def formulaOf (atoms : List AtomRow) (ids : List Nat) : List (String × Nat) :=
  let syms := (atoms.filter (fun a => ids.contains a.id)).map (fun a => a.symbol)
  syms.dedup.map (fun s => (s, syms.count s))

/-- Sweep the atom rows in order, opening a new molecule (the connected
component of the atom) for every atom not already seen. -/
def buildMols (atoms : List AtomRow) (edges : List (Nat × Nat)) :
    List AtomRow → List Nat → Nat → List MolRow
  | [], _, _ => []
  | a :: rest, seen, nid =>
    if seen.contains a.id then buildMols atoms edges rest seen nid
    else
      let comp := component edges (atoms.map (fun x => x.id)) a.id
      ⟨nid, a.frame, comp, formulaOf atoms comp, none⟩
        :: buildMols atoms edges rest (seen ++ comp) (nid + 1)

/-- Modelled from the spec: `exatomic.molecule.compute_molecule` (imported as
`_cm`; its module is not under `src/`).  Molecules are the connected
components of the bond graph, one row per component, with a multiset
composition summary and no classification label. -/
def cm (u : Universe) : List MolRow :=
  buildMols u.atom (bondPairs u) u.atom [] 0

/-- `Universe.compute_molecule` (with the default `com=False`): recompute and
cache the Molecule table (`self._molecule = _cm(self)`). -/
def Universe.compute_molecule (u : Universe) : Universe :=
  { u with _molecule := some (cm u) }

/-- The `molecule` accessor property: if the cached table is absent
(`not self._is('_molecule')`), invoke `compute_molecule`, then return the
cached table.  Returns the value, the post-access state, and the number of
`compute_molecule` invocations. -/
def Universe.molecule (u : Universe) : List MolRow × Universe × Nat :=
  match u._molecule with
  | none =>
    let u' := u.compute_molecule
    (u'._molecule.getD [], u', 1)
  | some m => (m, u, 0)

/-- A classification rule: formula pattern, classification label, and the
exact-match flag, as in `classify_molecules(('H(2)O(1)', 'solvent'))`.
Patterns are modelled in the same multiset representation as molecule
formulas. -/
structure Rule where
  identifier : List (String × Nat)
  label : String
  exact : Bool
deriving Repr, DecidableEq

/-- Whether a rule matches a molecule's formula: exact rules require the
whole composition, inexact rules require the pattern's symbols to be
contained (with at least the pattern's counts). -/
def ruleMatches (r : Rule) (formula : List (String × Nat)) : Bool :=
  if r.exact then r.identifier == formula
  else r.identifier.all (fun pr =>
    formula.any (fun fr => fr.1 == pr.1 && pr.2 ≤ fr.2))

/-- Modelled from the spec: `Molecule.classify` (in `exatomic.molecule`, not
under `src/`).  Each molecule gets the label of the first matching rule;
unmatched molecules are left as they are (no label assigned). -/
def classifyMols (rules : List Rule) (mols : List MolRow) : List MolRow :=
  mols.map (fun m =>
    match rules.find? (fun r => ruleMatches r m.formula) with
    | some r => { m with classification := some r.label }
    | none => m)

/-- `Universe.classify_molecules`: read the Molecule table through its lazy
accessor (computing it first when absent) and apply the classification rules
to it in place.  Returns the post-call state and the number of
`compute_molecule` invocations the call performed. -/
def Universe.classify_molecules (u : Universe) (rules : List Rule) :
    Universe × Nat :=
  let r := u.molecule
  ({ r.2.1 with _molecule := some (classifyMols rules r.1) }, r.2.2)

/-- The error taxonomy surfaced by the container's fallible operations. -/
inductive UniError where
  | indexError : UniError
  | notImplemented : UniError
deriving Repr, DecidableEq

/-- Attach a reconstructed field to the universe: when no store is present
the new store is taken as is; otherwise value arrays are appended to the
existing value-array sequence (`self._field.field_values + df.field_values`)
and the dimension dataframes are concatenated with a fresh ignore-index
(`pd.concat(..., ignore_index=True)`), so rows keep list position as their
index. -/
def Universe.attachField (u : Universe) (df : FieldStore) : Universe :=
  match u._field with
  | none => { u with _field := some df }
  | some old =>
    { u with _field := some ⟨old.df ++ df.df, old.field_values ++ df.field_values⟩ }

/-- `Universe.append_field`: with an integer `frame` argument, first check
that it is an index of the Frame table, raising `IndexError` before any
state is touched when it is not, and otherwise assign it onto the incoming
field's dimension rows (`field['frame'] = frame`); then attach the field to
the store.  (`self._reconstruct_field`, from the `exa` base class outside
`src/`, packages the dimension rows with their value arrays; the incoming
`FieldStore` models its result.) -/
def Universe.append_field (u : Universe) (field : FieldStore)
    (frame : Option Int) : Except UniError Universe :=
  match frame with
  | some f =>
    if u.frame.all (fun fr => fr.id ≠ f) then
      Except.error UniError.indexError
    else
      let fld := { field with df := field.df.map (fun r => { r with frame := some f }) }
      Except.ok (u.attachField fld)
  | none => Except.ok (u.attachField field)

/-- `Universe.append_dataframe`: unconditionally unimplemented
(`raise NotImplementedError()`); no state is produced. -/
def Universe.append_dataframe (u : Universe) (df : List (List ℚ)) :
    Except UniError Universe :=
  Except.error UniError.notImplemented

/-- `Universe.slice_by_molecules`: unconditionally unimplemented
(`raise NotImplementedError()`); no state is produced. -/
def Universe.slice_by_molecules (u : Universe) (identifier : List Nat) :
    Except UniError Universe :=
  Except.error UniError.notImplemented

/-- Modelled from the spec: reassigning the Atom base table (the attribute
assignment machinery lives in the `exa` container base classes, not under
`src/`).  The new table is installed — discarding the old table wholesale,
its derived `bond_count` column included — and every derived table
downstream of Atom (UnitAtom, VisualAtom, ProjectedAtom, Two/PeriodicTwo,
and with them the bond counts, and Molecule) is invalidated back to the
absent state. -/
def Universe.setAtom (u : Universe) (a : List AtomRow) : Universe :=
  { u with
    atom := a
    _unit_atom := none
    _visual_atom := none
    _projected_atom := none
    two_free := none
    two_periodic := none
    _molecule := none }

/-- Modelled from the spec: reassigning the Frame base table, cascading the
same downstream invalidation as `Universe.setAtom`; the bond-counts leg of
the spec's cascade (Frame → … → bond counts) also clears the derived
`bond_count` column the Atom table may carry, so no stale counts survive
the reassignment. -/
def Universe.setFrame (u : Universe) (f : List FrameRow) : Universe :=
  { u with
    frame := f
    atom := u.atom.map (fun a => { a with bond_count := none })
    _unit_atom := none
    _visual_atom := none
    _projected_atom := none
    two_free := none
    two_periodic := none
    _molecule := none }

/-! ## Concrete fixtures used by the witnesses -/

/-- A one-frame, zero-atom, non-periodic universe with every derived table
absent. -/
def wAbsent : Universe :=
  ⟨[⟨0, 0, false, none⟩], [], none, none, none, none, none, none, none⟩

/-- The same universe with every derived cache present (empty tables). -/
def wCached : Universe :=
  ⟨[⟨0, 0, false, none⟩], [], some [], some [], some [], some [], some [], some [], none⟩

/-! ## Claim theorems -/

/-- C1: each lazy accessor (`unit_atom`, `projected_atom`, `molecule`), on an
absent table, synchronously invokes its `compute_X` method exactly once,
caches the computed table, and returns the value read off that cache (the
`unit_atom` view merges the cached overlay over Atom, the other two return
the cached table itself); on a present cache it performs zero `compute_X`
invocations and returns the value read off the cached table, and in
particular a repeated access after a first one recomputes nothing and
returns the same value. -/
theorem lazy_accessors_cache (u : Universe) :
    (u._unit_atom = none →
      u.unit_atom = (updateAtoms u.atom (cua u), u.compute_unit_atom, 1)) ∧
    (∀ t, u._unit_atom = some t → u.unit_atom = (updateAtoms u.atom t, u, 0)) ∧
    (u._projected_atom = none →
      u.projected_atom = (cpa u, u.compute_projected_atom, 1)) ∧
    (∀ t, u._projected_atom = some t → u.projected_atom = (t, u, 0)) ∧
    (u._molecule = none → u.molecule = (cm u, u.compute_molecule, 1)) ∧
    (∀ t, u._molecule = some t → u.molecule = (t, u, 0)) ∧
    ((u.unit_atom).2.1.unit_atom = ((u.unit_atom).1, (u.unit_atom).2.1, 0)) ∧
    ((u.projected_atom).2.1.projected_atom
        = ((u.projected_atom).1, (u.projected_atom).2.1, 0)) ∧
    ((u.molecule).2.1.molecule = ((u.molecule).1, (u.molecule).2.1, 0)) := by
  refine ⟨?_, ?_, ?_, ?_, ?_, ?_, ?_, ?_, ?_⟩
  · intro h
    simp [Universe.unit_atom, h, Universe.compute_unit_atom]
  · intro t h
    simp [Universe.unit_atom, h]
  · intro h
    simp [Universe.projected_atom, h, Universe.compute_projected_atom]
  · intro t h
    simp [Universe.projected_atom, h]
  · intro h
    simp [Universe.molecule, h, Universe.compute_molecule]
  · intro t h
    simp [Universe.molecule, h]
  · cases h : u._unit_atom <;>
      simp [Universe.unit_atom, h, Universe.compute_unit_atom]
  · cases h : u._projected_atom <;>
      simp [Universe.projected_atom, h, Universe.compute_projected_atom]
  · cases h : u._molecule <;>
      simp [Universe.molecule, h, Universe.compute_molecule]

/-- C1 witness: on the concrete absent-cache universe each accessor performs
one compute invocation, on the cached universe zero. -/
theorem lazy_accessors_cache_witness :
    (wAbsent.unit_atom).2.2 = 1 ∧ (wCached.unit_atom).2.2 = 0 ∧
    (wAbsent.projected_atom).2.2 = 1 ∧ (wCached.projected_atom).2.2 = 0 ∧
    (wAbsent.molecule).2.2 = 1 ∧ (wCached.molecule).2.2 = 0 := by
  refine ⟨?_, ?_, ?_, ?_, ?_, ?_⟩
  · rw [(lazy_accessors_cache wAbsent).1 rfl]
  · rw [(lazy_accessors_cache wCached).2.1 [] rfl]
  · rw [(lazy_accessors_cache wAbsent).2.2.1 rfl]
  · rw [(lazy_accessors_cache wCached).2.2.2.1 [] rfl]
  · rw [(lazy_accessors_cache wAbsent).2.2.2.2.1 rfl]
  · rw [(lazy_accessors_cache wCached).2.2.2.2.2.1 [] rfl]

/-- C4: reassigning a base table (Atom via `setAtom`, Frame via `setFrame`)
transitions every derived table downstream of it back to the absent state —
unit atom, visual atom, projected atom, free and periodic two-body and
molecule all become absent, and the derived bond counts are invalidated
too: an Atom reassignment discards the old table (and with it any
`bond_count` column) wholesale in favour of the newly assigned one, and a
Frame reassignment clears the `bond_count` column of every surviving Atom
row — so the next access of each lazy accessor performs a fresh compute
invocation and no stale derived value remains reachable. -/
theorem base_reassignment_invalidates (u : Universe) (a : List AtomRow)
    (f : List FrameRow) :
    ((u.setAtom a)._unit_atom = none ∧ (u.setAtom a)._visual_atom = none ∧
      (u.setAtom a)._projected_atom = none ∧ (u.setAtom a).two_free = none ∧
      (u.setAtom a).two_periodic = none ∧ (u.setAtom a)._molecule = none ∧
      (u.setAtom a).atom = a) ∧
    ((u.setFrame f)._unit_atom = none ∧ (u.setFrame f)._visual_atom = none ∧
      (u.setFrame f)._projected_atom = none ∧ (u.setFrame f).two_free = none ∧
      (u.setFrame f).two_periodic = none ∧ (u.setFrame f)._molecule = none ∧
      (∀ x ∈ (u.setFrame f).atom, x.bond_count = none)) ∧
    (((u.setAtom a).unit_atom).2.2 = 1 ∧
      ((u.setAtom a).projected_atom).2.2 = 1 ∧
      ((u.setAtom a).molecule).2.2 = 1 ∧
      ((u.setFrame f).unit_atom).2.2 = 1 ∧
      ((u.setFrame f).projected_atom).2.2 = 1 ∧
      ((u.setFrame f).molecule).2.2 = 1) := by
  refine ⟨⟨rfl, rfl, rfl, rfl, rfl, rfl, rfl⟩,
    ⟨rfl, rfl, rfl, rfl, rfl, rfl, ?_⟩, ?_, ?_, ?_, ?_, ?_, ?_⟩
  · intro x hx
    rw [Universe.setFrame] at hx
    simp only [List.mem_map] at hx
    obtain ⟨y, _, hy⟩ := hx
    rw [← hy]
  all_goals
    simp [Universe.setAtom, Universe.setFrame, Universe.unit_atom,
      Universe.projected_atom, Universe.molecule]

/-- C9: the out-of-scope operations `append_dataframe` and
`slice_by_molecules` fail with the `NotImplementedError`-class error on
every input and never produce a (possibly mutated) universe. -/
theorem unimplemented_stubs (u : Universe) (df : List (List ℚ))
    (identifier : List Nat) :
    u.append_dataframe df = Except.error UniError.notImplemented ∧
    u.slice_by_molecules identifier = Except.error UniError.notImplemented ∧
    (∀ u2, u.append_dataframe df ≠ Except.ok u2) ∧
    (∀ u2, u.slice_by_molecules identifier ≠ Except.ok u2) := by
  refine ⟨rfl, rfl, fun u2 h => ?_, fun u2 h => ?_⟩ <;>
    simp [Universe.append_dataframe, Universe.slice_by_molecules] at h

/-- C10: for a free universe the `visual_atom` accessor returns the raw Atom
table itself, computing and caching nothing; for a periodic universe it
computes the overlay once on first access (caching it) and returns a fresh
copy of Atom with the overlay rows overridden, leaving the stored Atom table
unmodified, and a cached overlay is reused without recomputation. -/
theorem visual_atom_routes (u : Universe) :
    (u.is_periodic = false → u.visual_atom = (u.atom, u, 0)) ∧
    (u.is_periodic = true → u._visual_atom = none →
      u.visual_atom = (updateAtoms u.atom (cva u), u.compute_visual_atom, 1) ∧
      (u.visual_atom).2.1._visual_atom = some (cva u) ∧
      (u.visual_atom).2.1.atom = u.atom) ∧
    (∀ t, u.is_periodic = true → u._visual_atom = some t →
      u.visual_atom = (updateAtoms u.atom t, u, 0)) := by
  refine ⟨?_, ?_, ?_⟩
  · intro h
    simp [Universe.visual_atom, h]
  · intro h h2
    simp [Universe.visual_atom, h, h2, Universe.compute_visual_atom]
  · intro t h h2
    simp [Universe.visual_atom, h, h2]

/-- A one-frame, zero-atom periodic universe with every derived table
absent. -/
def wPeriodic : Universe :=
  ⟨[⟨0, 0, true, none⟩], [], none, none, none, none, none, none, none⟩

/-- The same periodic universe with a cached (empty) visual-atom overlay. -/
def wPeriodicCached : Universe :=
  ⟨[⟨0, 0, true, none⟩], [], none, some [], none, none, none, none, none⟩

/-- C10 witness: the free universe gets its raw Atom table back with no
compute; the periodic universe computes once on first access and reuses the
cache on a later access. -/
theorem visual_atom_routes_witness :
    wAbsent.visual_atom = (wAbsent.atom, wAbsent, 0) ∧
    (wPeriodic.visual_atom).2.2 = 1 ∧
    (wPeriodic.visual_atom).2.1.atom = wPeriodic.atom ∧
    (wPeriodicCached.visual_atom).2.2 = 0 := by
  refine ⟨(visual_atom_routes wAbsent).1 rfl, ?_, ?_, ?_⟩
  · rw [((visual_atom_routes wPeriodic).2.1 rfl rfl).1]
  · exact ((visual_atom_routes wPeriodic).2.1 rfl rfl).2.2
  · rw [(visual_atom_routes wPeriodicCached).2.2 [] rfl rfl]

/-- C2: `truncate_projected_atom` replaces the (present) ProjectedAtom table
by exactly its rows whose index appears among the `prjd_atom0`/`prjd_atom1`
values of PeriodicTwo — a row survives iff it was in the table and is
referenced — and consequently every referenced id that resolved in
ProjectedAtom before truncation still resolves after it: no bonded image is
dropped. -/
theorem truncate_projected_atom_exact (u : Universe) (t : List ProjRow)
    (h : u._projected_atom = some t) :
    (u.truncate_projected_atom)._projected_atom
        = some (t.filter (fun p => (referencedPrjd u).contains p.id)) ∧
    (∀ p, p ∈ (t.filter (fun p => (referencedPrjd u).contains p.id)) ↔
        p ∈ t ∧ p.id ∈ referencedPrjd u) ∧
    (∀ i, i ∈ referencedPrjd u → (∃ p ∈ t, p.id = i) →
        ∃ p ∈ (t.filter (fun p => (referencedPrjd u).contains p.id)), p.id = i) := by
  refine ⟨?_, ?_, ?_⟩
  · simp [Universe.truncate_projected_atom, h]
  · intro p
    simp [List.mem_filter, List.elem_iff]
  · intro i hi hp
    obtain ⟨p, hpt, hpi⟩ := hp
    refine ⟨p, ?_, hpi⟩
    rw [List.mem_filter]
    exact ⟨hpt, by simpa [List.elem_iff, hpi] using hi⟩

/-- Projected row fixtures: the identity image and one shifted image of atom
0, and a periodic-two row bonding the identity image to itself. -/
def w2row0 : ProjRow := ⟨0, 0, (0, 0, 0), ⟨0, 0, 0⟩, none⟩

def w2row1 : ProjRow := ⟨1, 0, (0, 0, 1), ⟨0, 0, 1⟩, none⟩

def w2two : PTwoRow := ⟨0, 0, 0, 0, 0, true⟩

/-- A periodic universe whose PeriodicTwo references only projected row 0. -/
def w2 : Universe :=
  ⟨[⟨0, 1, true, none⟩], [], none, none, some [w2row0, w2row1], none,
    some [w2two], none, none⟩

/-- C2 witness: truncating the concrete two-row projected table keeps exactly
the referenced row 0 and drops the unreferenced row 1, and the referenced id
0 still resolves afterwards. -/
theorem truncate_projected_atom_exact_witness :
    (w2.truncate_projected_atom)._projected_atom = some [w2row0] ∧
    (∃ p ∈ ([w2row0, w2row1].filter
        (fun p => (referencedPrjd w2).contains p.id)), p.id = 0) := by
  have h := truncate_projected_atom_exact w2 [w2row0, w2row1] rfl
  refine ⟨?_, h.2.2 0 (by decide) ⟨w2row0, by simp, rfl⟩⟩
  rw [h.1]
  rfl

/-- Helper: the post-access state of the `projected_atom` accessor holds the
accessed table in its cache and leaves every other component of the
container unchanged. -/
theorem projected_atom_state (u : Universe) :
    (u.projected_atom).2.1._projected_atom = some (u.projected_atom).1 ∧
    (u.projected_atom).2.1.atom = u.atom ∧
    (u.projected_atom).2.1.frame = u.frame ∧
    (u.projected_atom).2.1.two_free = u.two_free ∧
    (u.projected_atom).2.1.two_periodic = u.two_periodic := by
  cases h : u._projected_atom <;>
    simp [Universe.projected_atom, h, Universe.compute_projected_atom]

/-- C3: `compute_two_body` on a free universe stores the free kernel's rows
into `two_free` and leaves both `two_periodic` and the ProjectedAtom table
untouched, whatever the truncation flag; on a periodic universe it stores
the periodic kernel's rows into `two_periodic` and, with the flag at its
default (true), additionally truncates the projected table to the rows the
new PeriodicTwo references, whereas with the flag false the projected table
keeps the full accessed contents. -/
theorem compute_two_body_routes (u : Universe) (cut : Cutoffs) :
    (u.is_periodic = false →
      ∀ b, (u.compute_two_body cut b).two_free = some (ctbFree u.atom cut) ∧
        (u.compute_two_body cut b).two_periodic = u.two_periodic ∧
        (u.compute_two_body cut b)._projected_atom = u._projected_atom) ∧
    (u.is_periodic = true →
      (u.compute_two_body cut truncate_projected_default).two_periodic
          = some (ctbPeriodic (u.projected_atom).2.1.atom (u.projected_atom).1 cut) ∧
      (u.compute_two_body cut truncate_projected_default)._projected_atom
          = some (((u.projected_atom).1).filter
              (fun p => (referencedOf (ctbPeriodic (u.projected_atom).2.1.atom
                  (u.projected_atom).1 cut)).contains p.id)) ∧
      (u.compute_two_body cut false).two_periodic
          = some (ctbPeriodic (u.projected_atom).2.1.atom (u.projected_atom).1 cut) ∧
      (u.compute_two_body cut false)._projected_atom = some (u.projected_atom).1) := by
  constructor
  · intro h b
    refine ⟨?_, ?_, ?_⟩ <;> simp [Universe.compute_two_body, h]
  · intro h
    cases h2 : u._projected_atom <;>
      refine ⟨?_, ?_, ?_, ?_⟩ <;>
        simp [Universe.compute_two_body, h, h2, Universe.projected_atom,
          Universe.compute_projected_atom, Universe.truncate_projected_atom,
          truncate_projected_default, referencedPrjd]

/-- Cutoff table fixture. -/
def wCut : Cutoffs := fun _ _ => 0

/-- C3 witness: on the concrete free universe the free table is filled and
the projected cache stays absent; on the concrete periodic universe the
periodic table is filled and, at the default flag, the projected table is
truncated. -/
theorem compute_two_body_routes_witness :
    (wAbsent.compute_two_body wCut truncate_projected_default).two_free
        = some (ctbFree wAbsent.atom wCut) ∧
    (wAbsent.compute_two_body wCut truncate_projected_default)._projected_atom = none ∧
    (wPeriodic.compute_two_body wCut truncate_projected_default).two_periodic = some [] ∧
    (wPeriodic.compute_two_body wCut truncate_projected_default)._projected_atom = some [] := by
  have hf := (compute_two_body_routes wAbsent wCut).1 rfl truncate_projected_default
  have hp := (compute_two_body_routes wPeriodic wCut).2 rfl
  refine ⟨hf.1, hf.2.2, ?_, ?_⟩
  · rw [hp.1]
    rfl
  · rw [hp.2.1]
    rfl

/-- C5: appending a field to a store of m entries is purely additive: the
result holds the m old dimension rows and value arrays first, unchanged and
at their old positions, followed by the n new ones in matching order at the
fresh positions m..m+n−1; the store grows to exactly m+n entries with
nothing merged or deduplicated. -/
theorem append_field_additive (u : Universe) (old fnew : FieldStore)
    (h : u._field = some old) :
    u.append_field fnew none
        = Except.ok { u with _field := some ⟨old.df ++ fnew.df, old.field_values ++ fnew.field_values⟩ } ∧
    (old.df ++ fnew.df).length = old.df.length + fnew.df.length ∧
    (old.field_values ++ fnew.field_values).length
        = old.field_values.length + fnew.field_values.length ∧
    (old.df ++ fnew.df).take old.df.length = old.df ∧
    (old.field_values ++ fnew.field_values).take old.field_values.length
        = old.field_values ∧
    (old.df ++ fnew.df).drop old.df.length = fnew.df ∧
    (old.field_values ++ fnew.field_values).drop old.field_values.length
        = fnew.field_values := by
  refine ⟨?_, by simp, by simp, by simp, by simp, by simp, by simp⟩
  simp [Universe.append_field, Universe.attachField, h]

/-- Field store fixtures: a one-entry store and a one-entry field to append. -/
def w5old : FieldStore := ⟨[⟨none, 0, ⟨0, 0, 0⟩, (1, 1, 1)⟩], [[1]]⟩

def w5new : FieldStore := ⟨[⟨none, 1, ⟨0, 0, 0⟩, (2, 2, 2)⟩], [[2]]⟩

/-- A universe holding the one-entry store. -/
def w5 : Universe :=
  ⟨[⟨0, 0, false, none⟩], [], none, none, none, none, none, none, some w5old⟩

/-- C5 witness: appending the concrete one-entry field to the concrete
one-entry store yields the two-entry concatenation, of length 1+1. -/
theorem append_field_additive_witness :
    w5.append_field w5new none
        = Except.ok { w5 with _field := some ⟨w5old.df ++ w5new.df, w5old.field_values ++ w5new.field_values⟩ } ∧
    (w5old.df ++ w5new.df).length = 2 := by
  have h := append_field_additive w5 w5old w5new rfl
  refine ⟨h.1, ?_⟩
  rw [h.2.1]
  rfl

/-- C6: `append_field` with an integer frame argument that is not an index of
the Frame table fails with `IndexError`, producing no updated universe (the
store is untouched); with a valid integer frame id it succeeds and that id
is assigned onto every dimension row of the newly appended field. -/
theorem append_field_frame_validation (u : Universe) (field : FieldStore)
    (f : Int) :
    ((∀ fr ∈ u.frame, fr.id ≠ f) →
      u.append_field field (some f) = Except.error UniError.indexError ∧
      ∀ u2, u.append_field field (some f) ≠ Except.ok u2) ∧
    ((∃ fr ∈ u.frame, fr.id = f) →
      u.append_field field (some f)
          = Except.ok (u.attachField { field with df := field.df.map (fun r => { r with frame := some f }) }) ∧
      ∀ r ∈ field.df.map (fun r => { r with frame := some f }), r.frame = some f) := by
  constructor
  · intro h
    have hall : (u.frame.all fun fr => decide (fr.id ≠ f)) = true := by
      rw [List.all_eq_true]
      intro x hx
      rw [decide_eq_true_eq]
      exact h x hx
    constructor
    · simp only [Universe.append_field]
      rw [if_pos hall]
    · intro u2
      simp only [Universe.append_field]
      rw [if_pos hall]
      simp
  · rintro ⟨fr, hfr, hid⟩
    have hall : ¬((u.frame.all fun fr => decide (fr.id ≠ f)) = true) := by
      rw [List.all_eq_true]
      intro hc
      have h2 := hc fr hfr
      rw [decide_eq_true_eq] at h2
      exact h2 hid
    constructor
    · simp only [Universe.append_field]
      rw [if_neg hall]
    · intro r hr
      rw [List.mem_map] at hr
      obtain ⟨r0, _, hr0⟩ := hr
      rw [← hr0]

/-- C6 witness: on the concrete universe whose only frame id is 0, appending
with frame 5 raises `IndexError`, while appending with frame 0 succeeds and
stamps frame 0 onto the appended dimension row. -/
theorem append_field_frame_validation_witness :
    wAbsent.append_field w5new (some 5) = Except.error UniError.indexError ∧
    wAbsent.append_field w5new (some 0)
        = Except.ok { wAbsent with _field := some ⟨[⟨some 0, 1, ⟨0, 0, 0⟩, (2, 2, 2)⟩], [[2]]⟩ } := by
  constructor
  · exact ((append_field_frame_validation wAbsent w5new 5).1 (by decide)).1
  · rw [((append_field_frame_validation wAbsent w5new 0).2
      ⟨⟨0, 0, false, none⟩, by decide, rfl⟩).1]
    rfl

/-- C8: `classify_molecules` on a universe with no computed Molecule table
first triggers `compute_molecule` (one invocation, through the `molecule`
accessor) and applies the rules to the freshly computed table; with a cached
Molecule table it performs zero compute invocations and classifies the
cached table. -/
theorem classify_molecules_triggers_compute (u : Universe) (rules : List Rule) :
    (u._molecule = none →
      u.classify_molecules rules
          = ({ u with _molecule := some (classifyMols rules (cm u)) }, 1)) ∧
    (∀ m, u._molecule = some m →
      u.classify_molecules rules
          = ({ u with _molecule := some (classifyMols rules m) }, 0)) := by
  constructor
  · intro h
    simp [Universe.classify_molecules, Universe.molecule, h,
      Universe.compute_molecule]
  · intro m h
    simp [Universe.classify_molecules, Universe.molecule, h]

/-- C8 witness: classification on the concrete cache-absent universe makes
one compute invocation, on the cached universe zero, and the cached table is
the one classified. -/
theorem classify_molecules_triggers_compute_witness :
    (wAbsent.classify_molecules []).2 = 1 ∧
    (wCached.classify_molecules []).2 = 0 ∧
    (wCached.classify_molecules []).1._molecule = some (classifyMols [] []) := by
  refine ⟨?_, ?_, ?_⟩
  · rw [(classify_molecules_triggers_compute wAbsent []).1 rfl]
  · rw [(classify_molecules_triggers_compute wCached []).2 [] rfl]
  · rw [(classify_molecules_triggers_compute wCached []).2 [] rfl]

/-- Helper: a lookup into a self-keyed association list misses every key not
among the listed ones. -/
theorem lookup_map_of_not_mem (f : Nat → Nat) (k : Nat) :
    ∀ xs : List Nat, k ∉ xs → ((xs.map (fun a => (a, f a))).lookup k) = none := by
  intro xs
  induction xs with
  | nil => intro _; rfl
  | cons a as ih =>
    intro hx
    have hne : ¬(k = a) := fun hk => hx (hk ▸ List.mem_cons_self a as)
    have hk2 : k ∉ as := fun hk => hx (List.mem_cons_of_mem a hk)
    have hb : (k == a) = false := by simpa using hne
    simp [List.lookup, hb, ih hk2]

/-- Helper: the sparse bond tally has no entry for an unreferenced key. -/
theorem tally_lookup_none {l : List Nat} {k : Nat} (h : k ∉ l) :
    ((l.dedup.map (fun a => (a, l.count a))).lookup k) = none :=
  lookup_map_of_not_mem _ _ _ (fun hk => h (List.mem_dedup.mp hk))

/-- C7: after `compute_bond_count` every Atom row carries a non-negative
integer `bond_count`, and an atom referenced by no bond is written back with
the fill default 0; after `compute_projected_bond_count` a projected row
that no bond resolves to is written back with the sentinel fill default −1 —
the two defaults are asymmetric (0 versus −1). -/
theorem bond_count_fill_defaults (u : Universe) :
    (∀ a ∈ (u.compute_bond_count).atom, ∃ c : Int, a.bond_count = some c ∧ 0 ≤ c) ∧
    (∀ a0 ∈ u.atom, a0.id ∉ bondRefs u →
      ({ a0 with bond_count := some 0 } : AtomRow) ∈ (u.compute_bond_count).atom) ∧
    (∀ p0 ∈ (u.projected_atom).1, p0.id ∉ prjdBondRefs u →
      ({ p0 with bond_count := some (-1) } : ProjRow)
          ∈ ((u.compute_projected_bond_count)._projected_atom).getD []) := by
  refine ⟨?_, ?_, ?_⟩
  · intro a ha
    rw [Universe.compute_bond_count] at ha
    simp only [List.mem_map] at ha
    obtain ⟨a0, _, rfl⟩ := ha
    exact ⟨_, rfl, Int.ofNat_nonneg _⟩
  · intro a0 ha h
    have hl : ((cbc u).lookup a0.id) = none := tally_lookup_none h
    rw [Universe.compute_bond_count]
    simp only [List.mem_map]
    refine ⟨a0, ha, ?_⟩
    rw [hl]
    rfl
  · intro p0 hp h
    have htp : prjdBondRefs (u.projected_atom).2.1 = prjdBondRefs u := by
      unfold prjdBondRefs
      rw [(projected_atom_state u).2.2.2.2]
    have hl : ((cpbc (u.projected_atom).2.1).lookup p0.id) = none := by
      unfold cpbc
      rw [htp]
      exact tally_lookup_none h
    rw [Universe.compute_projected_bond_count]
    simp only [List.mem_map, Option.getD_some]
    refine ⟨p0, hp, ?_⟩
    rw [hl]
    rfl

/-- Atom fixtures: two bonded hydrogens and an unbonded oxygen. -/
def w7a0 : AtomRow := ⟨0, 0, "H", ⟨0, 0, 0⟩, none⟩

def w7a1 : AtomRow := ⟨1, 0, "H", ⟨0, 1, 0⟩, none⟩

def w7a2 : AtomRow := ⟨2, 0, "O", ⟨5, 5, 5⟩, none⟩

/-- A free universe whose two-body table bonds atoms 0 and 1 only. -/
def w7 : Universe :=
  ⟨[⟨0, 3, false, none⟩], [w7a0, w7a1, w7a2], none, none, none,
    some [⟨0, 1, 1, true⟩], none, none, none⟩

/-- Projected-atom fixtures for the periodic bond-count case. -/
def w7p0 : ProjRow := ⟨0, 0, (0, 0, 0), ⟨0, 0, 0⟩, none⟩

def w7p1 : ProjRow := ⟨1, 0, (0, 0, 1), ⟨0, 0, 1⟩, none⟩

/-- A periodic universe whose PeriodicTwo bonds projected row 0 to itself,
never resolving to projected row 1. -/
def w7p : Universe :=
  ⟨[⟨0, 1, true, none⟩], [w7a0], none, none, some [w7p0, w7p1], none,
    some [⟨0, 0, 0, 0, 0, true⟩], none, none⟩

/-- C7 witness: the unbonded concrete atom is written back with bond count
0, while the unresolved concrete projected row is written back with the
sentinel −1. -/
theorem bond_count_fill_defaults_witness :
    ({ w7a2 with bond_count := some 0 } : AtomRow) ∈ (w7.compute_bond_count).atom ∧
    ({ w7p1 with bond_count := some (-1) } : ProjRow)
        ∈ ((w7p.compute_projected_bond_count)._projected_atom).getD [] := by
  constructor
  · exact (bond_count_fill_defaults w7).2.1 w7a2 (by decide) (by decide)
  · exact (bond_count_fill_defaults w7p).2.2 w7p1 (by decide) (by decide)

/-- A fully-cached universe whose only atom carries a previously computed
(derived) bond count. -/
def w4 : Universe :=
  ⟨[⟨0, 1, false, none⟩], [⟨0, 0, "H", ⟨0, 0, 0⟩, some 3⟩],
    some [], some [], some [], some [], some [], some [], none⟩

/-- C4 witness: reassigning a base table on the concrete fully-cached
universe drops every derived cache, a following molecule access recomputes,
and the stale derived bond count of the surviving atom row is cleared by the
Frame reassignment (and discarded with the old table by the Atom
reassignment). -/
theorem base_reassignment_invalidates_witness :
    (w4.setAtom [])._unit_atom = none ∧
    (w4.setAtom [])._projected_atom = none ∧
    (w4.setAtom [])._molecule = none ∧
    (w4.setAtom []).atom = [] ∧
    ((w4.setAtom []).molecule).2.2 = 1 ∧
    (w4.setFrame [])._molecule = none ∧
    (w4.setFrame []).atom = [⟨0, 0, "H", ⟨0, 0, 0⟩, none⟩] ∧
    (⟨0, 0, "H", ⟨0, 0, 0⟩, none⟩ : AtomRow).bond_count = none := by
  have h := base_reassignment_invalidates w4 [] []
  refine ⟨h.1.1, h.1.2.2.1, h.1.2.2.2.2.2.1, h.1.2.2.2.2.2.2, h.2.2.2.2.1,
    h.2.1.2.2.2.2.2.1, rfl, ?_⟩
  exact h.2.1.2.2.2.2.2.2 ⟨0, 0, "H", ⟨0, 0, 0⟩, none⟩ (by decide)

/-- C9 witness: both stubs report the unimplemented error on a concrete
universe and concrete arguments. -/
theorem unimplemented_stubs_witness :
    wAbsent.append_dataframe [] = Except.error UniError.notImplemented ∧
    wAbsent.slice_by_molecules [] = Except.error UniError.notImplemented :=
  ⟨(unimplemented_stubs wAbsent [] []).1, (unimplemented_stubs wAbsent [] []).2.1⟩

end Exatomic
